import Mathlib

/-!
# Verification of the edge-plugin-watchdog monitor scheduler

Shallow embedding of the background service worker (`background.js`, and the
variant in `src/unnamed/part_002`), the content-script match evaluator
(`content.js`), and the history store, with theorems checking the
natural-language specification against them.

Conventions:
* JS timestamps (`Date.now()`) are `Nat` milliseconds, passed explicitly.
* The `monitors` storage object (keyed by unique monitor id) is a
  `List Monitor`; `Object.entries` enumerates in insertion order, which the
  list order models.  Keys of a JS object are unique, so updates addressed
  by id are modelled as updates of every list entry whose `id` field matches.
* `null` becomes `Option.none`.
* The in-memory `refreshTimers` map is modelled by the list of tab ids that
  currently have an armed timer.
* Platform calls (`chrome.tabs.get`, reload, window create) are oracles:
  a `tabExists : Nat → Bool` predicate, and explicit result parameters.
-/

namespace Watchdog

/-- One entry of a monitor's search-term list: `{ term, operator }` where
`operator` is `null`, `"AND"` or `"OR"` (content.js / startMonitoring). -/
structure SearchTerm where
  term : String
  operator : Option String
deriving Repr, DecidableEq

/-- A monitor record as created by the `startMonitoring` handler in
`background.js`. -/
structure Monitor where
  id : String
  tabId : Nat
  searchText : String
  searchTerms : List SearchTerm
  interval : Nat
  url : String
  title : String
  found : Bool
  foundAt : Option Nat
  isIncognito : Bool
  incognitoCycleCount : Nat
  nextRefreshTime : Option Nat
deriving Repr, DecidableEq

/-- Background service-worker state: the persisted `monitors` store, the
in-memory `refreshTimers` map (as the list of tab ids holding an armed
timer) and the `tabsBeingReset` set. -/
structure BgState where
  monitors : List Monitor
  timers : List Nat
  tabsBeingReset : List Nat
deriving Repr, DecidableEq

/-- `clearTabTimer` (background.js): drop the tab's timer entry. -/
def clearTabTimer (timers : List Nat) (tabId : Nat) : List Nat :=
  timers.filter (fun t => t ≠ tabId)

/-- `getActiveMonitorsForTab`: monitors on the tab that are not found. -/
def activeMonitorsForTab (monitors : List Monitor) (tabId : Nat) : List Monitor :=
  monitors.filter (fun m => m.tabId = tabId ∧ m.found = false)

/-- The `shortestInterval` loop of `scheduleRefreshForTab`: starts at
`Infinity` and takes the minimum `interval` over the given monitors; the
result is `none` when the list is empty (Infinity). -/
def shortestInterval? (ms : List Monitor) : Option Nat :=
  ms.foldl (fun acc m =>
    match acc with
    | none => some m.interval
    | some a => some (Nat.min a m.interval)) none

/-- `scheduleRefreshForTab` (background.js:299-361 / part_002:798-854), up to
the armed callback: collect the active monitors for the tab; with none,
clear the timer and stop; otherwise clear the timer, stamp
`nextRefreshTime = now + shortestInterval * 1000` on every active monitor of
the tab, persist, and arm a (one) timer for the tab. -/
def scheduleRefreshForTab (s : BgState) (tabId now : Nat) : BgState :=
  let actives := activeMonitorsForTab s.monitors tabId
  match shortestInterval? actives with
  | none => { s with timers := clearTabTimer s.timers tabId }
  | some shortest =>
    let nextRefreshTime := now + shortest * 1000
    let monitors := s.monitors.map (fun m =>
      if m.tabId = tabId ∧ m.found = false then
        { m with nextRefreshTime := some nextRefreshTime }
      else m)
    { s with
      monitors := monitors
      timers := tabId :: clearTabTimer s.timers tabId }

/-- The timer callback armed by `scheduleRefreshForTab`
(background.js:333-355).  Re-reads the active set; with none, no-op.
Otherwise, if the tab still exists, reload it (`didReload = true`); if the
tab lookup throws, delete every monitor bound to the tab and clear its
timer.  Returns the new state and whether a reload was issued. -/
def onRefreshTimerFire (s : BgState) (tabId : Nat) (tabExists : Bool) :
    BgState × Bool :=
  if (activeMonitorsForTab s.monitors tabId).isEmpty then (s, false)
  else if tabExists then (s, true)
  else
    ({ s with
        monitors := s.monitors.filter (fun m => m.tabId ≠ tabId)
        timers := clearTabTimer s.timers tabId }, false)

/-! ## Match evaluator (content.js:366-396) -/

/-- JS `String.prototype.includes` on already-lowercased text, as character
sequence containment. -/
def includesStr (hay needle : String) : Bool :=
  decide (needle.toList <:+: hay.toList)

/-- JS `term.toLowerCase()` as a character sequence (ASCII lowering). -/
def lowerChars (s : String) : List Char :=
  s.toList.map Char.toLower

/-- `includesStr` after lowering the needle, on character sequences. -/
def includesLower (hay : String) (needle : String) : Bool :=
  decide (lowerChars needle <:+: hay.toList)

/-- The OR-group splitting loop of `evaluateSearchTerms`: an entry whose
`operator` is `"OR"` closes the current AND-group (when non-empty) and
starts a new one; every entry's term is appended to the current group. -/
def splitOrGroups (searchTerms : List SearchTerm) : List (List String) :=
  let p := searchTerms.foldl (fun (acc : List (List String) × List String) entry =>
    let gs := acc.1
    let cur := acc.2
    if entry.operator = some "OR" ∧ cur ≠ [] then
      (gs ++ [cur], [entry.term])
    else
      (gs, cur ++ [entry.term])) ([], [])
  if p.2 = [] then p.1 else p.1 ++ [p.2]

/-- `evaluateSearchTerms` (content.js): empty list never matches; a single
term is a plain lowercased inclusion test; otherwise AND binds tighter than
OR — entries are split into OR-separated AND-groups and any group whose
terms all appear in the page text is a match. -/
def evaluateSearchTerms (searchTerms : List SearchTerm)
    (pageTextLower : String) : Bool :=
  match searchTerms with
  | [] => false
  | [t] => includesLower pageTextLower t.term
  | _ =>
    (splitOrGroups searchTerms).any (fun group =>
      group.all (fun term => includesLower pageTextLower term))

/-! ## Found handler (background.js:731-769) -/

/-- The store update of the `'found'` handler: the named monitor gets
`found = true`, `foundAt = now`, `nextRefreshTime = null`. -/
def markFound (monitors : List Monitor) (monitorId : String) (now : Nat) :
    List Monitor :=
  monitors.map (fun m =>
    if m.id = monitorId then
      { m with found := true, foundAt := some now, nextRefreshTime := none }
    else m)

/-- The `'found'` message handler: the alarm (notification collaborator) is
played unconditionally; if the named monitor exists it is marked
`found = true`, `foundAt` is stamped, `nextRefreshTime` is cleared, and
`scheduleRefreshForTab` is re-run for the monitor's tab.  Returns the new
state and whether the notification was triggered. -/
def handleFound (s : BgState) (monitorId : String) (now : Nat) :
    BgState × Bool :=
  match s.monitors.find? (fun m => m.id = monitorId) with
  | none => (s, true)
  | some m0 =>
    (scheduleRefreshForTab
      { s with monitors := markFound s.monitors monitorId now } m0.tabId now,
     true)

/-! ## Stuck watchdog (background.js:364-421 / part_002:857-899) -/

/-- A monitor is considered stuck: active (not found), with a non-null
`nextRefreshTime` more than `STUCK_THRESHOLD_MS = 30000` in the past. -/
def isStuck (m : Monitor) (now : Nat) : Bool :=
  !m.found &&
    match m.nextRefreshTime with
    | none => false
    | some t => decide (30000 < now - t)

/-- JS `Set.prototype.add`: append if absent (first-insertion order). -/
def insertUniqueRight (l : List Nat) (x : Nat) : List Nat :=
  if x ∈ l then l else l ++ [x]

/-- The `tabsToRefresh` set collected by `checkForStuckMonitors`: the tab of
every stuck monitor, in first-insertion order. -/
def stuckTabs (monitors : List Monitor) (now : Nat) : List Nat :=
  monitors.foldl (fun acc m =>
    if isStuck m now then insertUniqueRight acc m.tabId else acc) []

/-- The `shortestInterval` loop of `checkForStuckMonitors`: starts at `15`
(not Infinity) and lowers it by every faster active monitor of the tab. -/
def stuckShortest (monitors : List Monitor) (tabId : Nat) : Nat :=
  monitors.foldl (fun acc m =>
    if m.tabId = tabId ∧ m.found = false ∧ m.interval < acc then m.interval
    else acc) 15

/-- One iteration of the force-refresh loop of `checkForStuckMonitors`: if
the tab still exists, stamp `now + shortestInterval * 1000 + 5000` on its
active monitors and reload it (append to the reload log); if the tab lookup
throws, delete every monitor of the tab and clear its timer. -/
def forceRefreshTab (st : BgState × List Nat) (tabExists : Nat → Bool)
    (now tabId : Nat) : BgState × List Nat :=
  let s := st.1
  if tabExists tabId then
    let newTime := now + stuckShortest s.monitors tabId * 1000 + 5000
    let monitors := s.monitors.map (fun m =>
      if m.tabId = tabId ∧ m.found = false then
        { m with nextRefreshTime := some newTime }
      else m)
    ({ s with monitors := monitors }, st.2 ++ [tabId])
  else
    ({ s with
        monitors := s.monitors.filter (fun m => m.tabId ≠ tabId)
        timers := clearTabTimer s.timers tabId }, st.2)

/-- `checkForStuckMonitors`: collect the stuck tabs and force-refresh each;
returns the new state and the list of tabs that were reloaded. -/
def checkForStuckMonitors (s : BgState) (tabExists : Nat → Bool) (now : Nat) :
    BgState × List Nat :=
  (stuckTabs s.monitors now).foldl
    (fun st tabId => forceRefreshTab st tabExists now tabId) (s, [])

/-! ## Error-signal deduplication (background.js:810-826, 894-946) -/

/-- Lookup in the `recentNavErrors` map (tab id → last error time). -/
def lookupRecent (recent : List (Nat × Nat)) (tabId : Nat) : Option Nat :=
  (recent.find? (fun p => p.1 = tabId)).map (·.2)

/-- `recentNavErrors.set(tabId, now)`. -/
def setRecent (recent : List (Nat × Nat)) (tabId now : Nat) : List (Nat × Nat) :=
  recent.filter (fun p => p.1 ≠ tabId) ++ [(tabId, now)]

/-- The duplicate test of the `webNavigation.onErrorOccurred` listener:
a previous error for the tab less than 10000 ms ago. -/
def navErrorDup (recent : List (Nat × Nat)) (tabId now : Nat) : Bool :=
  match lookupRecent recent tabId with
  | none => false
  | some t => now - t < 10000

/-- The `webNavigation.onErrorOccurred` listener (background.js:898-946):
ignore tabs without active monitors; discard a duplicate error within the
10 s cooldown without touching the map; otherwise record the error time,
clean up entries older than 60 s, and invoke `handleErrorPageRetry`.
Returns the updated map and whether recovery was invoked. -/
def onNavErrorOccurred (s : BgState) (recent : List (Nat × Nat))
    (tabId now : Nat) : List (Nat × Nat) × Bool :=
  if (activeMonitorsForTab s.monitors tabId).isEmpty then (recent, false)
  else if navErrorDup recent tabId now then (recent, false)
  else
    ((setRecent recent tabId now).filter (fun p => ¬ 60000 < now - p.2), true)

/-- The `'errorPageDetected'` message handler (background.js:810-826): it
calls `handleErrorPageRetry` directly, with no cooldown test and without
consulting or updating `recentNavErrors`; recovery proceeds exactly when
the tab has an active monitor (`handleErrorPageRetry` returns `'skipped'`
otherwise).  Returns whether recovery was invoked. -/
def onErrorPageDetectedMsg (s : BgState) (tabId : Nat) : Bool :=
  !(activeMonitorsForTab s.monitors tabId).isEmpty

/-! ## History (background.js:107-115, 598-644, 683-693) -/

/-- A history entry: the spread `{ ...monitor, dismissedAt: Date.now() }`. -/
structure HistoryEntry extends Monitor where
  dismissedAt : Nat
deriving Repr, DecidableEq

/-- `addToHistory`: unshift the snapshot; if the list then exceeds 50
entries, pop the last (oldest) one. -/
def addToHistory (history : List HistoryEntry) (monitor : Monitor)
    (now : Nat) : List HistoryEntry :=
  let h := { toMonitor := monitor, dismissedAt := now } :: history
  if 50 < h.length then h.dropLast else h

/-- The `'stopAlarm'` handler's per-monitor branch (background.js:606-625):
if the named monitor exists, archive it into History when it is found,
delete it, and clear the tab's timer when no active monitor remains there. -/
def handleStopAlarmMonitor (s : BgState) (history : List HistoryEntry)
    (monitorId : String) (now : Nat) : BgState × List HistoryEntry :=
  match s.monitors.find? (fun m => m.id = monitorId) with
  | none => (s, history)
  | some m0 =>
    let history' := if m0.found then addToHistory history m0 now else history
    let monitors' := s.monitors.filter (fun m => m.id ≠ monitorId)
    let timers' :=
      if (activeMonitorsForTab monitors' m0.tabId).isEmpty then
        clearTabTimer s.timers m0.tabId
      else s.timers
    ({ s with monitors := monitors', timers := timers' }, history')

/-- The `'removeFromHistory'` handler: splice out position `index` when
`0 <= index < history.length`, otherwise leave the list untouched. -/
def removeFromHistory (history : List HistoryEntry) (index : Int) :
    List HistoryEntry :=
  if 0 ≤ index ∧ index < (history.length : Int) then
    history.eraseIdx index.toNat
  else history

/-! ## InPrivate session reset (background.js:144-269, 832-856)

The incognito branch of `handleErrorPageRetry`, split into its phases.  The
platform tab lookup of step 1 is the oracle `windowOf : Nat → Option Nat`
(tab id → its window, `none` when `chrome.tabs.get` throws), and window
re-creation in step 4 is the oracle `reopenTab : Nat → Option Nat`
(original tab id of a group → the new window's tab id, `none` when
`chrome.windows.create` throws). -/

/-- The monitors collected into `windowInfoMap`: InPrivate, not found, and
whose tab/window lookup succeeded (failures are skipped with `continue`). -/
def affectedForReset (monitors : List Monitor) (windowOf : Nat → Option Nat) :
    List Monitor :=
  monitors.filter (fun m =>
    m.isIncognito ∧ m.found = false ∧ (windowOf m.tabId).isSome)

/-- One marking step of phase 2: `tabsBeingReset.add(monitor.tabId)` and
`clearTabTimer(monitor.tabId)`. -/
def markResetStep (st : BgState) (m : Monitor) : BgState :=
  { st with
    tabsBeingReset := insertUniqueRight st.tabsBeingReset m.tabId
    timers := clearTabTimer st.timers m.tabId }

/-- Phase 2 (background.js:199-205): before any window is closed, add every
affected monitor's tab to `tabsBeingReset` and clear its timer. -/
def markTabsBeingReset (s : BgState) (windowOf : Nat → Option Nat) : BgState :=
  (affectedForReset s.monitors windowOf).foldl markResetStep s

/-- The `tabs.onRemoved` listener (background.js:832-856): a tab flagged in
`tabsBeingReset` is unflagged and its monitors are kept; otherwise every
monitor of the tab is deleted (and, when any was, the timer cleared). -/
def onTabRemoved (s : BgState) (tabId : Nat) : BgState :=
  if tabId ∈ s.tabsBeingReset then
    { s with tabsBeingReset := s.tabsBeingReset.filter (fun t => t ≠ tabId) }
  else
    let monitors' := s.monitors.filter (fun m => m.tabId ≠ tabId)
    if monitors'.length = s.monitors.length then s
    else { s with monitors := monitors', timers := clearTabTimer s.timers tabId }

/-- Phase 4 for one original tab group (background.js:238-266): on creation
failure the exception is caught and the store is untouched; on success each
monitor of the group is rebound to the new tab with a provisional
`nextRefreshTime`, and `scheduleRefreshForTab` is run for the new tab. -/
def reopenGroup (s : BgState) (groupIds : List String) (newTab? : Option Nat)
    (now : Nat) : BgState :=
  match newTab? with
  | none => s
  | some newTabId =>
    let monitors' := s.monitors.map (fun m =>
      if m.id ∈ groupIds then
        { m with
          tabId := newTabId
          nextRefreshTime := some (now + m.interval * 1000 + 3000) }
      else m)
    scheduleRefreshForTab { s with monitors := monitors' } newTabId now

/-- The whole InPrivate reset in program order: collect the affected
monitors, flag their tabs, let the platform deliver one `onRemoved` per
closed tab during the quiescence delay, then reopen one window per
original tab group and rebind its monitors. -/
def resetRun (s : BgState) (windowOf : Nat → Option Nat)
    (reopenTab : Nat → Option Nat) (now : Nat) : BgState :=
  let affected := affectedForReset s.monitors windowOf
  let closedTabs := (affected.map (·.tabId)).foldl insertUniqueRight []
  let s1 := markTabsBeingReset s windowOf
  let s2 := closedTabs.foldl onTabRemoved s1
  closedTabs.foldl (fun st origTab =>
    reopenGroup st
      ((affected.filter (fun m => m.tabId = origTab)).map (·.id))
      (reopenTab origTab) now) s2

/-- Everything of a monitor except its target binding (`tabId`) and its
schedule (`nextRefreshTime`). -/
def coreEq (m m' : Monitor) : Prop :=
  m.id = m'.id ∧ m.searchText = m'.searchText ∧
  m.searchTerms = m'.searchTerms ∧ m.interval = m'.interval ∧
  m.url = m'.url ∧ m.title = m'.title ∧ m.found = m'.found ∧
  m.foundAt = m'.foundAt ∧ m.isIncognito = m'.isIncognito ∧
  m.incognitoCycleCount = m'.incognitoCycleCount

/-! ## Backoff engine (spec §4.4 backoff variant) -/

/-- Modelled from the spec: the backoff delay of the error-recovery engine.
The delay computation itself is not in `src/` — only the README backoff
table (README.md:90-97) and the popup display of `inBackoff` /
`incognitoCycleCount` (shared.js:1194-1216) are — so it is modelled from
the spec's words: `delay = min(baseDelay * 2^(resetCycleCount-1), maxDelay)`
with `baseDelay = 5000` ms and `maxDelay = 120000` ms. -/
def backoffDelay (n : Nat) : Nat :=
  min (5000 * 2 ^ (n - 1)) 120000

/-- Modelled from the spec: the backoff-relevant state of one ephemeral
watch (`resetCycleCount` drives the delay; `nextRefreshAt` holds the
backoff deadline while `inBackoff`). -/
structure BackoffWatch where
  resetCycleCount : Nat
  inBackoff : Bool
  nextRefreshAt : Option Nat
deriving Repr, DecidableEq

/-- Modelled from the spec: one error-recovery reset — set `InBackoff`,
increment `resetCycleCount`, and persist `nextRefreshAt = now + delay`
where the delay is computed for this (the incremented) cycle. -/
def resetStep (w : BackoffWatch) (now : Nat) : BackoffWatch :=
  let n := w.resetCycleCount + 1
  { resetCycleCount := n
    inBackoff := true
    nextRefreshAt := some (now + backoffDelay n) }

/-- Modelled from the spec: a successful error-free content load resets
`resetCycleCount` to 0 and leaves backoff. -/
def successStep (w : BackoffWatch) : BackoffWatch :=
  { w with resetCycleCount := 0, inBackoff := false }

/-! ## Sample data used by witnesses and counterexamples -/

/-- A concrete active monitor, as `startMonitoring` would create it. -/
def sampleMonitor : Monitor :=
  { id := "m1", tabId := 1, searchText := "AAA"
    searchTerms := [⟨"AAA", none⟩], interval := 15
    url := "https://example.com/x", title := "x"
    found := false, foundAt := none, isIncognito := false
    incognitoCycleCount := 0, nextRefreshTime := some 1000 }

/-! ## C2 — backoff schedule (modelled from the spec) -/

theorem resetStep_foldl_count (times : List Nat) (w : BackoffWatch) :
    (times.foldl resetStep w).resetCycleCount =
      w.resetCycleCount + times.length := by
  induction times generalizing w with
  | nil => simp
  | cons t ts ih =>
    simp only [List.foldl_cons, ih, resetStep, List.length_cons]
    omega

/-- C2: for consecutive error-recovery resets of one ephemeral watch with no
intervening success, the n-th reset waits `min(5000 * 2^(n-1), 120000)` ms
(5000, 10000, 20000, 40000, 80000, then capped at 120000 from the 6th on),
`resetCycleCount` is incremented on each reset, and a successful error-free
content load resets it to 0. -/
theorem backoff_schedule_correct :
    (backoffDelay 1 = 5000 ∧ backoffDelay 2 = 10000 ∧ backoffDelay 3 = 20000 ∧
      backoffDelay 4 = 40000 ∧ backoffDelay 5 = 80000 ∧
      backoffDelay 6 = 120000) ∧
    (∀ n, 6 ≤ n → backoffDelay n = 120000) ∧
    (∀ (w : BackoffWatch) (now : Nat),
      (resetStep w now).resetCycleCount = w.resetCycleCount + 1 ∧
      (resetStep w now).inBackoff = true ∧
      (resetStep w now).nextRefreshAt =
        some (now + min (5000 * 2 ^ w.resetCycleCount) 120000)) ∧
    (∀ (times : List Nat) (w : BackoffWatch) (now : Nat),
      w.resetCycleCount = 0 →
      (times.foldl resetStep w).resetCycleCount = times.length ∧
      (resetStep (times.foldl resetStep w) now).nextRefreshAt =
        some (now + backoffDelay (times.length + 1))) ∧
    (∀ w : BackoffWatch, (successStep w).resetCycleCount = 0 ∧
      (successStep w).inBackoff = false) := by
  refine ⟨by decide, ?_, ?_, ?_, ?_⟩
  · intro n hn
    have h32 : (32 : Nat) ≤ 2 ^ (n - 1) := by
      calc (32 : Nat) = 2 ^ 5 := by decide
        _ ≤ 2 ^ (n - 1) := Nat.pow_le_pow_right (by decide) (by omega)
    have hbig : (120000 : Nat) ≤ 5000 * 2 ^ (n - 1) := by
      calc (120000 : Nat) ≤ 5000 * 32 := by decide
        _ ≤ 5000 * 2 ^ (n - 1) := Nat.mul_le_mul_left _ h32
    simpa [backoffDelay] using min_eq_right hbig
  · intro w now
    refine ⟨rfl, rfl, ?_⟩
    simp [resetStep, backoffDelay]
  · intro times w now h0
    refine ⟨by simp [resetStep_foldl_count, h0], ?_⟩
    simp [resetStep, resetStep_foldl_count, h0, backoffDelay]
  · intro w
    exact ⟨rfl, rfl⟩

/-- Witness for C2 at concrete inputs: the cap holds at n = 7, and three
consecutive resets from a fresh watch leave `resetCycleCount = 3` with the
fourth reset scheduled `backoffDelay 4 = 40000` ms out. -/
theorem backoff_schedule_correct_witness :
    backoffDelay 7 = 120000 ∧
    (([1000, 8000, 20000].foldl resetStep ⟨0, false, none⟩).resetCycleCount = 3 ∧
      (resetStep ([1000, 8000, 20000].foldl resetStep ⟨0, false, none⟩)
        50000).nextRefreshAt = some (50000 + backoffDelay 4)) :=
  ⟨backoff_schedule_correct.2.1 7 (by decide),
    backoff_schedule_correct.2.2.2.1 [1000, 8000, 20000] ⟨0, false, none⟩
      50000 rfl⟩

/-! ## C10 — removeFromHistory -/

/-- C10: `removeFromHistory i` removes exactly the entry at position `i`
(the result is the entries before `i` followed by the entries after `i`,
one entry shorter) when `0 ≤ i < length`, and leaves the history entirely
unchanged when `i` is negative or not less than the length. -/
theorem removeFromHistory_exact (h : List HistoryEntry) (i : Int) :
    (0 ≤ i → i < (h.length : Int) →
      removeFromHistory h i = h.take i.toNat ++ h.drop (i.toNat + 1) ∧
      (removeFromHistory h i).length + 1 = h.length) ∧
    (i < 0 → removeFromHistory h i = h) ∧
    ((h.length : Int) ≤ i → removeFromHistory h i = h) := by
  refine ⟨?_, ?_, ?_⟩
  · intro h0 hlt
    have hcond : 0 ≤ i ∧ i < (h.length : Int) := ⟨h0, hlt⟩
    have hnat : i.toNat < h.length := by omega
    rw [removeFromHistory, if_pos hcond]
    refine ⟨List.eraseIdx_eq_take_drop_succ h i.toNat, ?_⟩
    rw [List.length_eraseIdx]
    simp only [hnat, if_pos]
    omega
  · intro hneg
    rw [removeFromHistory, if_neg]
    intro hcond
    omega
  · intro hge
    rw [removeFromHistory, if_neg]
    intro hcond
    omega

/-- Witness for C10: a three-entry history at index 1 (in range) and at
index -1 and 3 (out of range). -/
theorem removeFromHistory_exact_witness :
    (removeFromHistory
        [⟨sampleMonitor, 5⟩, ⟨sampleMonitor, 6⟩, ⟨sampleMonitor, 7⟩] 1 =
      [⟨sampleMonitor, 5⟩, ⟨sampleMonitor, 7⟩]) ∧
    (removeFromHistory
        [⟨sampleMonitor, 5⟩, ⟨sampleMonitor, 6⟩, ⟨sampleMonitor, 7⟩] (-1) =
      [⟨sampleMonitor, 5⟩, ⟨sampleMonitor, 6⟩, ⟨sampleMonitor, 7⟩]) ∧
    (removeFromHistory
        [⟨sampleMonitor, 5⟩, ⟨sampleMonitor, 6⟩, ⟨sampleMonitor, 7⟩] 3 =
      [⟨sampleMonitor, 5⟩, ⟨sampleMonitor, 6⟩, ⟨sampleMonitor, 7⟩]) := by
  refine ⟨?_, ?_, ?_⟩
  · have := (removeFromHistory_exact
      [⟨sampleMonitor, 5⟩, ⟨sampleMonitor, 6⟩, ⟨sampleMonitor, 7⟩] 1).1
      (by decide) (by decide)
    simpa using this.1
  · exact (removeFromHistory_exact
      [⟨sampleMonitor, 5⟩, ⟨sampleMonitor, 6⟩, ⟨sampleMonitor, 7⟩] (-1)).2.1
      (by decide)
  · exact (removeFromHistory_exact
      [⟨sampleMonitor, 5⟩, ⟨sampleMonitor, 6⟩, ⟨sampleMonitor, 7⟩] 3).2.2
      (by decide)

/-! ## C5 — terminal cleanup on target gone -/

/-- C5: when a tab's refresh timer fires (with at least one active monitor —
otherwise the callback returns before touching the tab) and the tab lookup
fails, every monitor bound to that tab, regardless of state, is removed,
the tab's timer is cancelled so no timer remains for it, no reload is
issued, and monitors of other tabs are untouched. -/
theorem timer_fire_target_gone_cleanup (s : BgState) (tabId : Nat)
    (hact : activeMonitorsForTab s.monitors tabId ≠ []) :
    (∀ m ∈ (onRefreshTimerFire s tabId false).1.monitors, m.tabId ≠ tabId) ∧
    tabId ∉ (onRefreshTimerFire s tabId false).1.timers ∧
    (onRefreshTimerFire s tabId false).2 = false ∧
    (∀ m ∈ s.monitors, m.tabId ≠ tabId →
      m ∈ (onRefreshTimerFire s tabId false).1.monitors) := by
  have hne : (activeMonitorsForTab s.monitors tabId).isEmpty = false := by
    simpa [List.isEmpty_iff] using hact
  refine ⟨?_, ?_, ?_, ?_⟩ <;>
    simp [onRefreshTimerFire, hne, clearTabTimer, List.mem_filter] <;>
    exact fun m hm hmt => ⟨hm, hmt⟩

/-- Witness for C5: a tab with three active monitors whose target is gone
loses all three and its timer. -/
theorem timer_fire_target_gone_cleanup_witness :
    (∀ m ∈ (onRefreshTimerFire
        ⟨[sampleMonitor, { sampleMonitor with id := "m2", interval := 30 },
          { sampleMonitor with id := "m3", interval := 3 }], [1], []⟩
        1 false).1.monitors, m.tabId ≠ 1) ∧
    1 ∉ (onRefreshTimerFire
        ⟨[sampleMonitor, { sampleMonitor with id := "m2", interval := 30 },
          { sampleMonitor with id := "m3", interval := 3 }], [1], []⟩
        1 false).1.timers := by
  have h := timer_fire_target_gone_cleanup
    ⟨[sampleMonitor, { sampleMonitor with id := "m2", interval := 30 },
      { sampleMonitor with id := "m3", interval := 3 }], [1], []⟩
    1 (by decide)
  exact ⟨h.1, h.2.1⟩

/-! ## C8 — history snapshot and cap -/

theorem addToHistory_head (history : List HistoryEntry) (m : Monitor)
    (now : Nat) :
    (addToHistory history m now).head? =
      some { toMonitor := m, dismissedAt := now } := by
  simp only [addToHistory]
  split
  · cases history with
    | nil => simp at *
    | cons x t => simp [List.dropLast]
  · simp

theorem addToHistory_length_le (history : List HistoryEntry) (m : Monitor)
    (now : Nat) (hle : history.length ≤ 50) :
    (addToHistory history m now).length ≤ 50 := by
  simp only [addToHistory]
  split <;> rename_i hsplit <;> simp at hsplit ⊢ <;> omega

/-- C8: dismissing a found monitor with `foundAt = T` appends (at the head)
a snapshot of the monitor carrying `dismissedAt = now > T` to the History
list; the History list never exceeds 50 entries across any sequence of
dismissals, and when the cap is hit the oldest (last) entry is evicted. -/
theorem history_dismissal_correct (s : BgState) (history : List HistoryEntry)
    (mid : String) (now T : Nat) (m0 : Monitor)
    (hfind : s.monitors.find? (fun m => m.id = mid) = some m0)
    (hfound : m0.found = true) (hT : m0.foundAt = some T) (hTnow : T < now) :
    ((handleStopAlarmMonitor s history mid now).2 =
      addToHistory history m0 now) ∧
    ((addToHistory history m0 now).head? =
      some { toMonitor := m0, dismissedAt := now } ∧ T < now) ∧
    (history.length ≤ 50 → (addToHistory history m0 now).length ≤ 50) ∧
    (history.length = 50 →
      addToHistory history m0 now =
        { toMonitor := m0, dismissedAt := now } :: history.dropLast) ∧
    (∀ (ops : List (Monitor × Nat)) (h0 : List HistoryEntry),
      h0.length ≤ 50 →
      (ops.foldl (fun h p => addToHistory h p.1 p.2) h0).length ≤ 50) := by
  refine ⟨?_, ⟨addToHistory_head history m0 now, hTnow⟩, ?_, ?_, ?_⟩
  · unfold handleStopAlarmMonitor
    rw [hfind]
    simp [hfound]
  · exact addToHistory_length_le history m0 now
  · intro h50
    simp only [addToHistory]
    rw [if_pos (by simp [h50])]
    cases history with
    | nil => simp at h50
    | cons x t => simp [List.dropLast]
  · intro ops
    induction ops with
    | nil => intro h0 hle; simpa using hle
    | cons p ps ih =>
      intro h0 hle
      exact ih (addToHistory h0 p.1 p.2) (addToHistory_length_le h0 p.1 p.2 hle)

/-- Witness for C8: dismissing a concrete found monitor (`foundAt = 100`,
dismissed at 200) from a singleton store. -/
theorem history_dismissal_correct_witness :
    (handleStopAlarmMonitor
        ⟨[{ sampleMonitor with found := true, foundAt := some 100 }], [], []⟩
        [] "m1" 200).2 =
      addToHistory [] { sampleMonitor with found := true, foundAt := some 100 }
        200 ∧
    (addToHistory [] { sampleMonitor with found := true, foundAt := some 100 }
        200).head? =
      some { toMonitor :=
               { sampleMonitor with found := true, foundAt := some 100 }
             dismissedAt := 200 } := by
  have h := history_dismissal_correct
    ⟨[{ sampleMonitor with found := true, foundAt := some 100 }], [], []⟩
    [] "m1" 200 100 { sampleMonitor with found := true, foundAt := some 100 }
    (by decide) rfl rfl (by decide)
  exact ⟨h.1, h.2.1.1⟩

/-! ## C3 — AND/OR grouping of the match evaluator -/

/-- The matchSpec of the spec's round-trip example:
`[{term:"A",joiner:null},{term:"B",joiner:"OR"},{term:"C",joiner:null}]`. -/
def exSpecTerms : List SearchTerm :=
  [⟨"A", none⟩, ⟨"B", some "OR"⟩, ⟨"C", none⟩]

/-- C3 counterexample: the page text `"zzz c zzz"` contains `C` but neither
`A` nor `B`, yet `evaluateSearchTerms` returns **no** match — the claim that
this matchSpec matches any text containing only `C` is false on the code,
because `C`'s null joiner ANDs it into `B`'s group. -/
theorem or_grouping_counterexample :
    includesLower "zzz c zzz" "C" = true ∧
    includesLower "zzz c zzz" "A" = false ∧
    includesLower "zzz c zzz" "B" = false ∧
    evaluateSearchTerms exSpecTerms "zzz c zzz" = false := by decide

/-- C3 amended: the matchSpec `[A(null), B(OR), C(null)]` is grouped by
`evaluateSearchTerms` into the OR-separated AND-groups `[A]` and `[B, C]`,
so it matches a page exactly when the page contains `A`, or contains both
`B` and `C`; in particular a page with `C` but neither `A` nor `B` does not
match. -/
theorem or_grouping_correct (pageTextLower : String) :
    splitOrGroups exSpecTerms = [["A"], ["B", "C"]] ∧
    evaluateSearchTerms exSpecTerms pageTextLower =
      (includesLower pageTextLower "A" ||
        (includesLower pageTextLower "B" &&
          includesLower pageTextLower "C")) := by
  refine ⟨by decide, ?_⟩
  simp [evaluateSearchTerms, exSpecTerms, splitOrGroups]

/-! ## C1 — one minimal deadline per tab -/

theorem shortestInterval?_cons (m : Monitor) (t : List Monitor) :
    shortestInterval? (m :: t) =
      some (t.foldl (fun x n => Nat.min x n.interval) m.interval) := by
  show List.foldl _ (some m.interval) t = _
  induction t generalizing m with
  | nil => rfl
  | cons n t ih =>
    simp only [List.foldl_cons]
    exact ih { m with interval := Nat.min m.interval n.interval }

theorem foldl_min_le_init (t : List Monitor) (a : Nat) :
    t.foldl (fun x n => Nat.min x n.interval) a ≤ a := by
  induction t generalizing a with
  | nil => simp
  | cons n t ih =>
    simp only [List.foldl_cons]
    exact le_trans (ih _) (Nat.min_le_left _ _)

theorem foldl_min_le_mem (t : List Monitor) (a : Nat) :
    ∀ n ∈ t, t.foldl (fun x n => Nat.min x n.interval) a ≤ n.interval := by
  induction t generalizing a with
  | nil => simp
  | cons n t ih =>
    intro n' hn'
    simp only [List.mem_cons] at hn'
    rcases hn' with rfl | hn'
    · simp only [List.foldl_cons]
      exact le_trans (foldl_min_le_init _ _) (Nat.min_le_right _ _)
    · exact ih _ n' hn'

theorem foldl_min_attained (t : List Monitor) (a : Nat) :
    t.foldl (fun x n => Nat.min x n.interval) a = a ∨
      ∃ n ∈ t, t.foldl (fun x n => Nat.min x n.interval) a = n.interval := by
  induction t generalizing a with
  | nil => simp
  | cons n t ih =>
    simp only [List.foldl_cons]
    rcases ih (Nat.min a n.interval) with h | ⟨n', hn', h⟩
    · rcases Nat.le_total a n.interval with hle | hle
      · left; rw [h]; exact Nat.min_eq_left hle
      · right; exact ⟨n, List.mem_cons_self n t, by rw [h]; exact Nat.min_eq_right hle⟩
    · right; exact ⟨n', List.mem_cons_of_mem n hn', h⟩

/-- The `shortestInterval` of a non-empty monitor list is the minimum of
their `interval`s: attained by a member and a lower bound for all. -/
theorem shortestInterval?_min (ms : List Monitor) (I : Nat)
    (h : shortestInterval? ms = some I) :
    (∃ m ∈ ms, m.interval = I) ∧ ∀ m ∈ ms, I ≤ m.interval := by
  cases ms with
  | nil => simp [shortestInterval?] at h
  | cons m t =>
    rw [shortestInterval?_cons] at h
    have hfold : t.foldl (fun x n => Nat.min x n.interval) m.interval = I :=
      Option.some.inj h
    subst hfold
    constructor
    · rcases foldl_min_attained t m.interval with h' | ⟨n, hn, h'⟩
      · exact ⟨m, List.mem_cons_self m t, h'.symm⟩
      · exact ⟨n, List.mem_cons_of_mem m hn, h'.symm⟩
    · intro n hn
      rcases List.mem_cons.mp hn with rfl | hn
      · exact foldl_min_le_init t n.interval
      · exact foldl_min_le_mem t m.interval n hn

theorem shortestInterval?_isSome (ms : List Monitor) (h : ms ≠ []) :
    ∃ I, shortestInterval? ms = some I := by
  cases ms with
  | nil => exact absurd rfl h
  | cons m t => exact ⟨_, shortestInterval?_cons m t⟩

/-- After `scheduleRefreshForTab`, every active monitor of the tab carries
`nextRefreshTime = now + I * 1000` and the tab has an armed timer. -/
theorem schedule_sets_next (s : BgState) (tabId now I : Nat)
    (hI : shortestInterval? (activeMonitorsForTab s.monitors tabId) = some I) :
    (∀ m ∈ (scheduleRefreshForTab s tabId now).monitors,
      m.tabId = tabId → m.found = false →
      m.nextRefreshTime = some (now + I * 1000)) ∧
    tabId ∈ (scheduleRefreshForTab s tabId now).timers := by
  simp only [scheduleRefreshForTab]
  rw [hI]
  dsimp only
  constructor
  · intro m hm htab hfound
    simp only [List.mem_map] at hm
    obtain ⟨m', hm', rfl⟩ := hm
    by_cases hc : m'.tabId = tabId ∧ m'.found = false
    · simp [hc]
    · rw [if_neg hc] at htab hfound ⊢
      exact absurd ⟨htab, hfound⟩ hc
  · simp

/-- C1: immediately after `scheduleRefreshForTab tabId` completes on a tab
with at least one active monitor, there is a single value `I` — attained by
one of the tab's active monitors and a lower bound for all of their
intervals, i.e. the minimum `interval` — such that every active monitor of
the tab carries `nextRefreshTime = now + I * 1000`, and the tab holds the
(single) armed timer governing them. -/
theorem schedule_min_interval_invariant (s : BgState) (tabId now : Nat)
    (hact : activeMonitorsForTab s.monitors tabId ≠ []) :
    ∃ I, shortestInterval? (activeMonitorsForTab s.monitors tabId) = some I ∧
      (∃ m ∈ activeMonitorsForTab s.monitors tabId, m.interval = I) ∧
      (∀ m ∈ activeMonitorsForTab s.monitors tabId, I ≤ m.interval) ∧
      (∀ m ∈ (scheduleRefreshForTab s tabId now).monitors,
        m.tabId = tabId → m.found = false →
        m.nextRefreshTime = some (now + I * 1000)) ∧
      tabId ∈ (scheduleRefreshForTab s tabId now).timers := by
  obtain ⟨I, hI⟩ := shortestInterval?_isSome _ hact
  obtain ⟨hmem, hlb⟩ := shortestInterval?_min _ I hI
  obtain ⟨hset, htimer⟩ := schedule_sets_next s tabId now I hI
  exact ⟨I, hI, hmem, hlb, hset, htimer⟩

/-- Witness for C1: two active monitors (intervals 15 and 3) on tab 1. -/
theorem schedule_min_interval_invariant_witness :
    ∃ I, shortestInterval?
        (activeMonitorsForTab
          [sampleMonitor, { sampleMonitor with id := "m2", interval := 3 }]
          1) = some I ∧
      (∃ m ∈ activeMonitorsForTab
          [sampleMonitor, { sampleMonitor with id := "m2", interval := 3 }] 1,
        m.interval = I) ∧
      (∀ m ∈ activeMonitorsForTab
          [sampleMonitor, { sampleMonitor with id := "m2", interval := 3 }] 1,
        I ≤ m.interval) ∧
      (∀ m ∈ (scheduleRefreshForTab
          ⟨[sampleMonitor, { sampleMonitor with id := "m2", interval := 3 }],
            [], []⟩ 1 2000).monitors,
        m.tabId = 1 → m.found = false →
        m.nextRefreshTime = some (2000 + I * 1000)) ∧
      1 ∈ (scheduleRefreshForTab
          ⟨[sampleMonitor, { sampleMonitor with id := "m2", interval := 3 }],
            [], []⟩ 1 2000).timers :=
  schedule_min_interval_invariant
    ⟨[sampleMonitor, { sampleMonitor with id := "m2", interval := 3 }], [], []⟩
    1 2000 (by decide)

/-! ## C6 — the 'found' signal -/

theorem markFound_id (monitors : List Monitor) (mid : String) (now : Nat) :
    ∀ m ∈ markFound monitors mid now, m.id = mid →
      m.found = true ∧ m.foundAt = some now ∧ m.nextRefreshTime = none := by
  intro m hm hid
  simp only [markFound, List.mem_map] at hm
  obtain ⟨m', hm', rfl⟩ := hm
  by_cases h : m'.id = mid
  · simp [h]
  · rw [if_neg h] at hid ⊢
    exact absurd hid h

/-- Every monitor in the store after `scheduleRefreshForTab` comes from a
store entry, agreeing on every field except possibly `nextRefreshTime`
(which only changes for active monitors). -/
theorem schedule_monitors_shape (s : BgState) (tabId now : Nat) :
    ∀ m ∈ (scheduleRefreshForTab s tabId now).monitors,
      ∃ m' ∈ s.monitors, m.id = m'.id ∧ m.found = m'.found ∧
        m.foundAt = m'.foundAt ∧ m.tabId = m'.tabId ∧
        (m.nextRefreshTime = m'.nextRefreshTime ∨ m'.found = false) := by
  intro m hm
  simp only [scheduleRefreshForTab] at hm
  cases hsi : shortestInterval? (activeMonitorsForTab s.monitors tabId) with
  | none =>
    rw [hsi] at hm
    exact ⟨m, hm, rfl, rfl, rfl, rfl, Or.inl rfl⟩
  | some I =>
    rw [hsi] at hm
    simp only [List.mem_map] at hm
    obtain ⟨m', hm', rfl⟩ := hm
    by_cases h : m'.tabId = tabId ∧ m'.found = false
    · refine ⟨m', hm', ?_⟩
      simp [h, h.2]
    · rw [if_neg h]
      exact ⟨m', hm', rfl, rfl, rfl, rfl, Or.inl rfl⟩

/-- C6: on a `'found'` signal naming an existing monitor, the notification
collaborator is triggered, the monitor is transitioned to `found = true`
with `foundAt` stamped to the current time and `nextRefreshTime` cleared,
and `scheduleRefreshForTab` is re-run for the monitor's tab, so the
remaining active monitors there carry the freshly computed
`nextRefreshTime` and the tab keeps an armed timer. -/
theorem found_signal_correct (s : BgState) (mid : String) (now : Nat)
    (m0 : Monitor)
    (hfind : s.monitors.find? (fun m => m.id = mid) = some m0) :
    (handleFound s mid now).2 = true ∧
    (handleFound s mid now).1 =
      scheduleRefreshForTab
        { s with monitors := markFound s.monitors mid now } m0.tabId now ∧
    (∀ m ∈ (handleFound s mid now).1.monitors, m.id = mid →
      m.found = true ∧ m.foundAt = some now ∧ m.nextRefreshTime = none) ∧
    (∀ I, shortestInterval?
        (activeMonitorsForTab (markFound s.monitors mid now) m0.tabId) =
        some I →
      (∀ m ∈ (handleFound s mid now).1.monitors,
        m.tabId = m0.tabId → m.found = false →
        m.nextRefreshTime = some (now + I * 1000)) ∧
      m0.tabId ∈ (handleFound s mid now).1.timers) := by
  have hres : handleFound s mid now =
      (scheduleRefreshForTab
        { s with monitors := markFound s.monitors mid now } m0.tabId now,
       true) := by
    simp [handleFound, hfind]
  refine ⟨by rw [hres], by rw [hres], ?_, ?_⟩
  · intro m hm hid
    rw [hres] at hm
    obtain ⟨m', hm', hids, hfound, hfAt, _, hnext⟩ :=
      schedule_monitors_shape _ m0.tabId now m hm
    have hm'id : m'.id = mid := hids ▸ hid
    obtain ⟨hf', hA', hN'⟩ := markFound_id s.monitors mid now m' hm' hm'id
    refine ⟨hfound.trans hf', hfAt.trans hA', ?_⟩
    rcases hnext with h | h
    · exact h.trans hN'
    · rw [hf'] at h
      exact absurd h (by simp)
  · intro I hI
    have h := schedule_sets_next
      { s with monitors := markFound s.monitors mid now } m0.tabId now I hI
    rw [hres]
    exact h

/-- Witness for C6: a two-monitor tab where `"m1"` is found at `t = 7000`
and the remaining active monitor (interval 3) is rescheduled. -/
theorem found_signal_correct_witness :
    (handleFound
      ⟨[sampleMonitor, { sampleMonitor with id := "m2", interval := 3 }],
        [1], []⟩ "m1" 7000).2 = true ∧
    (∀ m ∈ (handleFound
        ⟨[sampleMonitor, { sampleMonitor with id := "m2", interval := 3 }],
          [1], []⟩ "m1" 7000).1.monitors, m.id = "m1" →
      m.found = true ∧ m.foundAt = some 7000 ∧ m.nextRefreshTime = none) := by
  have h := found_signal_correct
    ⟨[sampleMonitor, { sampleMonitor with id := "m2", interval := 3 }],
      [1], []⟩ "m1" 7000 sampleMonitor (by decide)
  exact ⟨h.1, h.2.2.1⟩

/-! ## C7 — error-signal deduplication -/

/-- C7 counterexample: with one active monitor on tab 1, a navigation error
at `t = 1000` is handled and recorded; an error signal arriving through the
content-inspection path (`'errorPageDetected'`) 1000 ms later — well within
the 10 s cooldown — still invokes recovery, because that handler never
consults the `recentNavErrors` cooldown.  The claim that the deduplication
covers both detection paths is therefore false. -/
theorem error_dedup_counterexample :
    (onNavErrorOccurred ⟨[sampleMonitor], [], []⟩ [] 1 1000).2 = true ∧
    (onNavErrorOccurred ⟨[sampleMonitor], [], []⟩ [] 1 1000).1 = [(1, 1000)] ∧
    navErrorDup [(1, 1000)] 1 2000 = true ∧
    onErrorPageDetectedMsg ⟨[sampleMonitor], [], []⟩ 1 = true := by decide

theorem lookupRecent_after_record (recent : List (Nat × Nat))
    (tabId now : Nat) :
    lookupRecent
      ((setRecent recent tabId now).filter (fun p => ¬ 60000 < now - p.2))
      tabId = some now := by
  unfold lookupRecent setRecent
  rw [List.filter_append]
  rw [List.find?_append]
  have h1 : List.find? (fun p => p.1 = tabId)
      ((recent.filter (fun p => p.1 ≠ tabId)).filter
        (fun p => ¬ 60000 < now - p.2)) = none := by
    rw [List.find?_eq_none]
    intro p hp
    have := (List.mem_filter.mp (List.mem_filter.mp hp).1).2
    simpa using this
  rw [h1]
  simp

/-- C7 amended: the 10 s per-tab cooldown deduplicates only the
navigation-failure detection path — a duplicate navigation error within the
cooldown is discarded silently, without invoking recovery or touching the
map, and an accepted navigation error suppresses further navigation errors
for that tab for the next 10 s — while the content-inspection path
(`'errorPageDetected'`) has no cooldown: whenever the tab has an active
monitor it invokes recovery. -/
theorem nav_error_dedup_correct (s : BgState) (recent : List (Nat × Nat))
    (tabId t now : Nat) :
    (lookupRecent recent tabId = some t → now - t < 10000 →
      onNavErrorOccurred s recent tabId now = (recent, false)) ∧
    ((onNavErrorOccurred s recent tabId now).2 = true →
      ∀ now', now' - now < 10000 →
        (onNavErrorOccurred s ((onNavErrorOccurred s recent tabId now).1)
          tabId now').2 = false) ∧
    (activeMonitorsForTab s.monitors tabId ≠ [] →
      onErrorPageDetectedMsg s tabId = true) := by
  refine ⟨?_, ?_, ?_⟩
  · intro hlook hcool
    unfold onNavErrorOccurred
    by_cases hact : (activeMonitorsForTab s.monitors tabId).isEmpty
    · simp [hact]
    · have hdup : navErrorDup recent tabId now = true := by
        unfold navErrorDup
        rw [hlook]
        simpa using hcool
      simp [hact, hdup]
  · intro hinv now' hcool
    have hproc : (onNavErrorOccurred s recent tabId now).1 =
        (setRecent recent tabId now).filter (fun p => ¬ 60000 < now - p.2) := by
      unfold onNavErrorOccurred at hinv ⊢
      by_cases hact : (activeMonitorsForTab s.monitors tabId).isEmpty
      · simp [hact] at hinv
      · by_cases hdup : navErrorDup recent tabId now = true
        · simp [hact, hdup] at hinv
        · simp [hact, hdup]
    rw [hproc]
    have hdup' : navErrorDup
        ((setRecent recent tabId now).filter (fun p => ¬ 60000 < now - p.2))
        tabId now' = true := by
      unfold navErrorDup
      rw [lookupRecent_after_record]
      simpa using hcool
    unfold onNavErrorOccurred
    by_cases hact : (activeMonitorsForTab s.monitors tabId).isEmpty = true
    · rw [if_pos hact]
    · rw [if_neg hact, if_pos hdup']
  · intro hact
    unfold onErrorPageDetectedMsg
    simpa [List.isEmpty_iff] using hact

/-- Witness for C7 at concrete inputs: a duplicate navigation error 2 s
after a recorded one for tab 1 is discarded; an accepted error then
suppresses a second navigation error 3 s later; and the content path fires
with an active monitor present. -/
theorem nav_error_dedup_correct_witness :
    (onNavErrorOccurred ⟨[sampleMonitor], [], []⟩ [(1, 1000)] 1 3000 =
      ([(1, 1000)], false)) ∧
    ((onNavErrorOccurred ⟨[sampleMonitor], [], []⟩
        ((onNavErrorOccurred ⟨[sampleMonitor], [], []⟩ [] 1 1000).1)
        1 4000).2 = false) ∧
    onErrorPageDetectedMsg ⟨[sampleMonitor], [], []⟩ 1 = true := by
  have h := nav_error_dedup_correct ⟨[sampleMonitor], [], []⟩ [(1, 1000)]
    1 1000 3000
  have h2 := nav_error_dedup_correct ⟨[sampleMonitor], [], []⟩ [] 1 0 1000
  exact ⟨h.1 (by decide) (by decide),
    h2.2.1 (by decide) 4000 (by decide),
    h.2.2 (by decide)⟩

/-! ## C4 — the stuck-watchdog sweep -/

/-- The monitors of one tab (restriction used to track per-tab effects). -/
def tabMonitors (monitors : List Monitor) (t : Nat) : List Monitor :=
  monitors.filter (fun m => m.tabId = t)

theorem insertUniqueRight_mem_mono (l : List Nat) (x y : Nat) (h : y ∈ l) :
    y ∈ insertUniqueRight l x := by
  unfold insertUniqueRight
  split
  · exact h
  · exact List.mem_append_left _ h

theorem insertUniqueRight_self (l : List Nat) (x : Nat) :
    x ∈ insertUniqueRight l x := by
  unfold insertUniqueRight
  split
  · assumption
  · simp

theorem insertUniqueRight_nodup (l : List Nat) (x : Nat) (h : l.Nodup) :
    (insertUniqueRight l x).Nodup := by
  unfold insertUniqueRight
  split
  · exact h
  · rename_i hx
    simpa [List.nodup_append, h] using hx

theorem stuckTabs_fold_mono (l : List Monitor) (now : Nat) :
    ∀ (acc : List Nat) (x : Nat), x ∈ acc →
      x ∈ l.foldl (fun acc m =>
        if isStuck m now then insertUniqueRight acc m.tabId else acc) acc := by
  induction l with
  | nil => intro acc x hx; exact hx
  | cons m t ih =>
    intro acc x hx
    simp only [List.foldl_cons]
    apply ih
    split
    · exact insertUniqueRight_mem_mono _ _ _ hx
    · exact hx

theorem stuckTabs_fold_mem (l : List Monitor) (now : Nat) :
    ∀ (acc : List Nat) (m : Monitor), m ∈ l → isStuck m now = true →
      m.tabId ∈ l.foldl (fun acc m =>
        if isStuck m now then insertUniqueRight acc m.tabId else acc) acc := by
  induction l with
  | nil => intro acc m hm; exact absurd hm (List.not_mem_nil m)
  | cons a t ih =>
    intro acc m hm hs
    simp only [List.foldl_cons]
    rcases List.mem_cons.mp hm with rfl | hm
    · rw [if_pos hs]
      exact stuckTabs_fold_mono t now _ _ (insertUniqueRight_self acc m.tabId)
    · exact ih _ m hm hs

/-- Every stuck monitor marks its tab for a forced refresh. -/
theorem mem_stuckTabs (monitors : List Monitor) (now : Nat) :
    ∀ m ∈ monitors, isStuck m now = true →
      m.tabId ∈ stuckTabs monitors now := by
  intro m hm hs
  exact stuckTabs_fold_mem monitors now [] m hm hs

theorem stuckTabs_nodup (monitors : List Monitor) (now : Nat) :
    (stuckTabs monitors now).Nodup := by
  unfold stuckTabs
  suffices h : ∀ acc : List Nat, acc.Nodup →
      (monitors.foldl (fun acc m =>
        if isStuck m now then insertUniqueRight acc m.tabId else acc)
        acc).Nodup by
    exact h [] List.nodup_nil
  induction monitors with
  | nil => intro acc h; exact h
  | cons a t ih =>
    intro acc h
    simp only [List.foldl_cons]
    apply ih
    split
    · exact insertUniqueRight_nodup _ _ h
    · exact h

/-- Mapping a `tabId`-preserving function that fixes all monitors of tab
`t` does not change the tab-`t` restriction. -/
theorem tabMonitors_map_fix (monitors : List Monitor) (t : Nat)
    (f : Monitor → Monitor) (hf1 : ∀ m, (f m).tabId = m.tabId)
    (hf2 : ∀ m, m.tabId = t → f m = m) :
    tabMonitors (monitors.map f) t = tabMonitors monitors t := by
  induction monitors with
  | nil => rfl
  | cons a l ih =>
    simp only [List.map_cons, tabMonitors, List.filter_cons] at ih ⊢
    by_cases h : a.tabId = t
    · rw [if_pos (by simp [hf1, h]), if_pos (by simp [h]), hf2 a h]
      exact congrArg _ ih
    · rw [if_neg (by simp [hf1, h]), if_neg (by simp [h])]
      exact ih

/-- Deleting the monitors of a different tab does not change the tab-`t`
restriction. -/
theorem tabMonitors_filter_ne (monitors : List Monitor) (t t' : Nat)
    (h : t' ≠ t) :
    tabMonitors (monitors.filter (fun m => m.tabId ≠ t')) t =
      tabMonitors monitors t := by
  induction monitors with
  | nil => rfl
  | cons a l ih =>
    simp only [tabMonitors, List.filter_cons] at ih ⊢
    by_cases ht : a.tabId = t
    · have h1 : (decide (a.tabId ≠ t') = true) := by
        simp only [ht, decide_eq_true_eq]
        omega
      have h2 : (decide (a.tabId = t) = true) := by simp [ht]
      rw [if_pos h1, List.filter_cons, if_pos h2, if_pos h2]
      exact congrArg _ ih
    · have h2 : ¬ (decide (a.tabId = t) = true) := by simp [ht]
      by_cases ht' : a.tabId = t'
      · have h1 : ¬ (decide (a.tabId ≠ t') = true) := by simp [ht']
        rw [if_neg h1, if_neg h2]
        exact ih
      · have h1 : (decide (a.tabId ≠ t') = true) := by simp [ht']
        rw [if_pos h1, List.filter_cons, if_neg h2, if_neg h2]
        exact ih

/-- `stuckShortest` only looks at the tab's own monitors. -/
theorem stuckShortest_restrict (monitors : List Monitor) (t : Nat) :
    stuckShortest monitors t =
      (tabMonitors monitors t).foldl (fun acc m =>
        if m.found = false ∧ m.interval < acc then m.interval else acc) 15 := by
  unfold stuckShortest tabMonitors
  suffices h : ∀ a : Nat, monitors.foldl (fun acc m =>
      if m.tabId = t ∧ m.found = false ∧ m.interval < acc then m.interval
      else acc) a =
      (monitors.filter (fun m => m.tabId = t)).foldl (fun acc m =>
        if m.found = false ∧ m.interval < acc then m.interval else acc) a by
    exact h 15
  induction monitors with
  | nil => intro a; rfl
  | cons m l ih =>
    intro a
    simp only [List.foldl_cons, List.filter_cons]
    by_cases ht : m.tabId = t
    · have h2 : (decide (m.tabId = t) = true) := by simp [ht]
      by_cases hc : m.found = false ∧ m.interval < a
      · rw [if_pos ⟨ht, hc.1, hc.2⟩, if_pos h2]
        simp only [List.foldl_cons]
        rw [if_pos hc]
        exact ih _
      · have hc3 : ¬ (m.tabId = t ∧ m.found = false ∧ m.interval < a) := by
          intro h'
          exact hc ⟨h'.2.1, h'.2.2⟩
        rw [if_neg hc3, if_pos h2]
        simp only [List.foldl_cons]
        rw [if_neg hc]
        exact ih _
    · have h2 : ¬ (decide (m.tabId = t) = true) := by simp [ht]
      have hc3 : ¬ (m.tabId = t ∧ m.found = false ∧ m.interval < a) := by
        intro h'
        exact ht h'.1
      rw [if_neg hc3, if_neg h2]
      exact ih _

theorem stuckShortest_congr (m₁ m₂ : List Monitor) (t : Nat)
    (h : tabMonitors m₁ t = tabMonitors m₂ t) :
    stuckShortest m₁ t = stuckShortest m₂ t := by
  rw [stuckShortest_restrict, stuckShortest_restrict, h]

/-- A force-refresh of another tab does not touch tab `t`'s monitors. -/
theorem forceRefresh_restrict_other (st : BgState × List Nat)
    (tabExists : Nat → Bool) (now t t' : Nat) (h : t' ≠ t) :
    tabMonitors (forceRefreshTab st tabExists now t').1.monitors t =
      tabMonitors st.1.monitors t := by
  unfold forceRefreshTab
  by_cases he : tabExists t' = true
  · rw [if_pos he]
    exact tabMonitors_map_fix _ _ _
      (by
        intro m
        by_cases hc : m.tabId = t' ∧ m.found = false
        · rw [if_pos hc]
        · rw [if_neg hc])
      (by
        intro m hm
        rw [if_neg]
        intro hc
        exact h (hc.1.symm.trans hm))
  · rw [if_neg he]
    exact tabMonitors_filter_ne _ _ _ h

theorem forceRefresh_reloads_mono (st : BgState × List Nat)
    (tabExists : Nat → Bool) (now t' x : Nat) (hx : x ∈ st.2) :
    x ∈ (forceRefreshTab st tabExists now t').2 := by
  unfold forceRefreshTab
  by_cases he : tabExists t' = true
  · rw [if_pos he]
    exact List.mem_append_left _ hx
  · rw [if_neg he]
    exact hx

/-- The force-refresh of a still-existing stuck tab: its active monitors
get `now + stuckShortest * 1000 + 5000`, and the tab is reloaded. -/
theorem forceRefresh_self_exists (st : BgState × List Nat)
    (tabExists : Nat → Bool) (now t : Nat) (he : tabExists t = true) :
    (∀ m ∈ (forceRefreshTab st tabExists now t).1.monitors,
      m.tabId = t → m.found = false →
      m.nextRefreshTime =
        some (now + stuckShortest st.1.monitors t * 1000 + 5000)) ∧
    t ∈ (forceRefreshTab st tabExists now t).2 := by
  unfold forceRefreshTab
  rw [if_pos he]
  constructor
  · intro m hm htab hfound
    simp only [List.mem_map] at hm
    obtain ⟨m', hm', rfl⟩ := hm
    by_cases hc : m'.tabId = t ∧ m'.found = false
    · simp [hc]
    · rw [if_neg hc] at htab hfound ⊢
      exact absurd ⟨htab, hfound⟩ hc
  · simp

/-- The force-refresh of a vanished stuck tab deletes all its monitors. -/
theorem forceRefresh_self_gone (st : BgState × List Nat)
    (tabExists : Nat → Bool) (now t : Nat) (he : tabExists t = false) :
    tabMonitors (forceRefreshTab st tabExists now t).1.monitors t = [] := by
  unfold forceRefreshTab
  rw [if_neg (by simp [he])]
  simp only [tabMonitors]
  rw [List.filter_eq_nil_iff]
  intro m hm
  have := (List.mem_filter.mp hm).2
  simp at this ⊢
  exact this

theorem fold_force_restrict_notmem (l : List Nat) (tabExists : Nat → Bool)
    (now t : Nat) (h : t ∉ l) :
    ∀ st : BgState × List Nat,
      tabMonitors
        (l.foldl (fun st tabId => forceRefreshTab st tabExists now tabId)
          st).1.monitors t = tabMonitors st.1.monitors t := by
  induction l with
  | nil => intro st; rfl
  | cons a l ih =>
    intro st
    simp only [List.foldl_cons]
    have ha : a ≠ t := fun hc => h (hc ▸ List.mem_cons_self a l)
    rw [ih (fun hc => h (List.mem_cons_of_mem a hc))]
    exact forceRefresh_restrict_other st tabExists now t a ha

theorem fold_force_reloads_mono (l : List Nat) (tabExists : Nat → Bool)
    (now x : Nat) :
    ∀ st : BgState × List Nat, x ∈ st.2 →
      x ∈ (l.foldl (fun st tabId => forceRefreshTab st tabExists now tabId)
        st).2 := by
  induction l with
  | nil => intro st hx; exact hx
  | cons a l ih =>
    intro st hx
    simp only [List.foldl_cons]
    exact ih _ (forceRefresh_reloads_mono st tabExists now a x hx)

/-- The per-stuck-tab effect of the whole force-refresh fold. -/
theorem fold_force_correct (l : List Nat) (tabExists : Nat → Bool)
    (now t : Nat) (hnd : l.Nodup) (ht : t ∈ l) :
    ∀ st : BgState × List Nat,
      (tabExists t = true →
        (∀ m ∈ (l.foldl (fun st tabId =>
            forceRefreshTab st tabExists now tabId) st).1.monitors,
          m.tabId = t → m.found = false →
          m.nextRefreshTime =
            some (now + stuckShortest st.1.monitors t * 1000 + 5000)) ∧
        t ∈ (l.foldl (fun st tabId =>
          forceRefreshTab st tabExists now tabId) st).2) ∧
      (tabExists t = false →
        ∀ m ∈ (l.foldl (fun st tabId =>
          forceRefreshTab st tabExists now tabId) st).1.monitors,
          m.tabId ≠ t) := by
  induction l with
  | nil => exact absurd ht (List.not_mem_nil t)
  | cons a l ih =>
    intro st
    simp only [List.foldl_cons]
    have hnd' : l.Nodup := (List.nodup_cons.mp hnd).2
    by_cases hat : a = t
    · subst hat
      have hnotmem : a ∉ l := (List.nodup_cons.mp hnd).1
      constructor
      · intro he
        obtain ⟨hset, hrel⟩ := forceRefresh_self_exists st tabExists now a he
        constructor
        · intro m hm htab hfound
          have hrestrict := fold_force_restrict_notmem l tabExists now a
            hnotmem (forceRefreshTab st tabExists now a)
          have hmem : m ∈ tabMonitors (l.foldl (fun st tabId =>
              forceRefreshTab st tabExists now tabId)
              (forceRefreshTab st tabExists now a)).1.monitors a := by
            simp [tabMonitors, List.mem_filter, hm, htab]
          rw [hrestrict] at hmem
          have hm' := (List.mem_filter.mp hmem).1
          exact hset m hm' htab hfound
        · exact fold_force_reloads_mono l tabExists now a _ hrel
      · intro he
        intro m hm
        have hrestrict := fold_force_restrict_notmem l tabExists now a
          hnotmem (forceRefreshTab st tabExists now a)
        have hempty := forceRefresh_self_gone st tabExists now a he
        intro htab
        have hmem : m ∈ tabMonitors (l.foldl (fun st tabId =>
            forceRefreshTab st tabExists now tabId)
            (forceRefreshTab st tabExists now a)).1.monitors a := by
          simp [tabMonitors, List.mem_filter, hm, htab]
        rw [hrestrict, hempty] at hmem
        exact absurd hmem (List.not_mem_nil m)
    · have htl : t ∈ l := by
        rcases List.mem_cons.mp ht with rfl | h'
        · exact absurd rfl hat
        · exact h'
      have hIH := ih hnd' htl (forceRefreshTab st tabExists now a)
      have hshort : stuckShortest
          (forceRefreshTab st tabExists now a).1.monitors t =
          stuckShortest st.1.monitors t :=
        stuckShortest_congr _ _ t
          (forceRefresh_restrict_other st tabExists now t a hat)
      rw [hshort] at hIH
      exact hIH

/-- A stuck monitor with a 60 s interval on tab 1, long overdue. -/
def monitor60 : Monitor :=
  { sampleMonitor with interval := 60, nextRefreshTime := some 0 }

/-- C4 counterexample: a stuck monitor with `interval = 60` s on a still
existing tab is rescheduled to `now + 15 * 1000 + 5000`, not
`now + 60 * 1000 + 5000` as the claim's "current fastest intervalSeconds
among them" requires — the sweep's `shortestInterval` loop starts at 15,
clamping the recomputed interval at 15 s. -/
theorem watchdog_interval_counterexample :
    ((checkForStuckMonitors ⟨[monitor60], [], []⟩ (fun _ => true)
        100000).1.monitors.map (fun m => m.nextRefreshTime)) =
      [some 120000] ∧
    100000 + monitor60.interval * 1000 + 5000 = 165000 ∧
    (120000 : Nat) ≠ 165000 := by decide

/-- C4 amended: every active monitor whose non-null `nextRefreshTime` is
more than 30 s in the past marks its tab for a forced refresh; for each
marked tab that still exists, `nextRefreshTime` of all its active monitors
is recomputed as now plus the smaller of 15 s and their fastest
`intervalSeconds` (the sweep's minimum computation is clamped at 15 s) plus
a 5 s safety buffer, and the tab is reloaded at once; a marked tab that no
longer exists has all its monitors deleted. -/
theorem watchdog_sweep_correct (s : BgState) (tabExists : Nat → Bool)
    (now : Nat) :
    (∀ m ∈ s.monitors, isStuck m now = true →
      m.tabId ∈ stuckTabs s.monitors now) ∧
    (∀ t ∈ stuckTabs s.monitors now,
      (tabExists t = true →
        (∀ m ∈ (checkForStuckMonitors s tabExists now).1.monitors,
          m.tabId = t → m.found = false →
          m.nextRefreshTime =
            some (now + stuckShortest s.monitors t * 1000 + 5000)) ∧
        t ∈ (checkForStuckMonitors s tabExists now).2) ∧
      (tabExists t = false →
        ∀ m ∈ (checkForStuckMonitors s tabExists now).1.monitors,
          m.tabId ≠ t)) := by
  refine ⟨mem_stuckTabs s.monitors now, ?_⟩
  intro t ht
  exact fold_force_correct (stuckTabs s.monitors now) tabExists now t
    (stuckTabs_nodup s.monitors now) ht (s, [])

/-- Witness for C4: the single 60 s-interval stuck monitor on the
still-existing tab 1 is rescheduled (to `now + 15000 + 5000`) and the tab
reloaded. -/
theorem watchdog_sweep_correct_witness :
    (∀ m ∈ (checkForStuckMonitors ⟨[monitor60], [], []⟩ (fun _ => true)
        100000).1.monitors,
      m.tabId = 1 → m.found = false →
      m.nextRefreshTime =
        some (100000 + stuckShortest [monitor60] 1 * 1000 + 5000)) ∧
    1 ∈ (checkForStuckMonitors ⟨[monitor60], [], []⟩ (fun _ => true)
        100000).2 :=
  ((watchdog_sweep_correct ⟨[monitor60], [], []⟩ (fun _ => true) 100000).2
    1 (by decide)).1 rfl

/-! ## C9 — the InPrivate reset never silently deletes a watch -/

theorem insertUniqueRight_mem_iff (l : List Nat) (x y : Nat) :
    y ∈ insertUniqueRight l x ↔ (y ∈ l ∨ y = x) := by
  unfold insertUniqueRight
  split
  · rename_i hx
    constructor
    · exact Or.inl
    · rintro (h | rfl)
      · exact h
      · exact hx
  · simp

theorem mark_fold_monitors (l : List Monitor) :
    ∀ s : BgState, (l.foldl markResetStep s).monitors = s.monitors := by
  induction l with
  | nil => intro s; rfl
  | cons a l ih =>
    intro s
    simp only [List.foldl_cons]
    rw [ih]
    rfl

theorem mark_fold_set_mono (l : List Monitor) :
    ∀ (s : BgState) (x : Nat), x ∈ s.tabsBeingReset →
      x ∈ (l.foldl markResetStep s).tabsBeingReset := by
  induction l with
  | nil => intro s x hx; exact hx
  | cons a l ih =>
    intro s x hx
    simp only [List.foldl_cons]
    exact ih _ x ((insertUniqueRight_mem_iff _ _ _).mpr (Or.inl hx))

theorem mark_fold_mem (l : List Monitor) :
    ∀ (s : BgState) (m : Monitor), m ∈ l →
      m.tabId ∈ (l.foldl markResetStep s).tabsBeingReset := by
  induction l with
  | nil => intro s m hm; exact absurd hm (List.not_mem_nil m)
  | cons a l ih =>
    intro s m hm
    simp only [List.foldl_cons]
    rcases List.mem_cons.mp hm with rfl | hm
    · exact mark_fold_set_mono l _ _
        ((insertUniqueRight_mem_iff _ _ _).mpr (Or.inr rfl))
    · exact ih _ m hm

theorem onTabRemoved_flagged (s : BgState) (tabId : Nat)
    (h : tabId ∈ s.tabsBeingReset) :
    (onTabRemoved s tabId).monitors = s.monitors ∧
    (onTabRemoved s tabId).tabsBeingReset =
      s.tabsBeingReset.filter (fun t => t ≠ tabId) := by
  unfold onTabRemoved
  rw [if_pos h]
  exact ⟨rfl, rfl⟩

theorem fold_onTabRemoved_no_delete (l : List Nat) :
    ∀ s : BgState, l.Nodup → (∀ t ∈ l, t ∈ s.tabsBeingReset) →
      (l.foldl onTabRemoved s).monitors = s.monitors := by
  induction l with
  | nil => intro s _ _; rfl
  | cons a l ih =>
    intro s hnd hsub
    simp only [List.foldl_cons]
    have ha : a ∈ s.tabsBeingReset := hsub a (List.mem_cons_self a l)
    obtain ⟨hmon, hset⟩ := onTabRemoved_flagged s a ha
    rw [ih _ (List.nodup_cons.mp hnd).2 ?_, hmon]
    intro t htl
    rw [hset]
    have hta : t ≠ a := by
      intro hc
      exact (List.nodup_cons.mp hnd).1 (hc ▸ htl)
    simp only [List.mem_filter, decide_eq_true_eq]
    exact ⟨hsub t (List.mem_cons_of_mem a htl), hta⟩

theorem foldl_insertUniqueRight_mem (l : List Nat) :
    ∀ (init : List Nat) (x : Nat),
      x ∈ l.foldl insertUniqueRight init ↔ (x ∈ init ∨ x ∈ l) := by
  induction l with
  | nil => intro init x; simp
  | cons a l ih =>
    intro init x
    simp only [List.foldl_cons]
    rw [ih, insertUniqueRight_mem_iff]
    simp only [List.mem_cons]
    tauto

theorem foldl_insertUniqueRight_nodup (l : List Nat) :
    ∀ init : List Nat, init.Nodup →
      (l.foldl insertUniqueRight init).Nodup := by
  induction l with
  | nil => intro init h; exact h
  | cons a l ih =>
    intro init h
    simp only [List.foldl_cons]
    exact ih _ (insertUniqueRight_nodup init a h)

theorem coreEq_refl (m : Monitor) : coreEq m m :=
  ⟨rfl, rfl, rfl, rfl, rfl, rfl, rfl, rfl, rfl, rfl⟩

theorem coreEq_trans (a b c : Monitor) (h1 : coreEq a b) (h2 : coreEq b c) :
    coreEq a c := by
  obtain ⟨e1, e2, e3, e4, e5, e6, e7, e8, e9, e10⟩ := h1
  obtain ⟨f1, f2, f3, f4, f5, f6, f7, f8, f9, f10⟩ := h2
  exact ⟨e1.trans f1, e2.trans f2, e3.trans f3, e4.trans f4, e5.trans f5,
    e6.trans f6, e7.trans f7, e8.trans f8, e9.trans f9, e10.trans f10⟩

theorem forall₂_coreEq_refl (l : List Monitor) : List.Forall₂ coreEq l l := by
  induction l with
  | nil => exact List.Forall₂.nil
  | cons a l ih => exact List.Forall₂.cons (coreEq_refl a) ih

theorem forall₂_coreEq_trans (l₁ l₂ l₃ : List Monitor)
    (h1 : List.Forall₂ coreEq l₁ l₂) (h2 : List.Forall₂ coreEq l₂ l₃) :
    List.Forall₂ coreEq l₁ l₃ := by
  induction h1 generalizing l₃ with
  | nil =>
    cases h2
    exact List.Forall₂.nil
  | cons hab h1' ih =>
    cases h2 with
    | cons hbc h2' =>
      exact List.Forall₂.cons (coreEq_trans _ _ _ hab hbc) (ih _ h2')

theorem forall₂_coreEq_map (l : List Monitor) (f : Monitor → Monitor)
    (hf : ∀ m, coreEq m (f m)) : List.Forall₂ coreEq l (l.map f) := by
  induction l with
  | nil => exact List.Forall₂.nil
  | cons a l ih => exact List.Forall₂.cons (hf a) ih

theorem forall₂_coreEq_mem_left (l l' : List Monitor)
    (h : List.Forall₂ coreEq l l') (m : Monitor) (hm : m ∈ l) :
    ∃ m' ∈ l', coreEq m m' := by
  induction h with
  | nil => exact absurd hm (List.not_mem_nil m)
  | cons hab h' ih =>
    rcases List.mem_cons.mp hm with rfl | hm'
    · exact ⟨_, List.mem_cons_self _ _, hab⟩
    · obtain ⟨m', hm'', hcore⟩ := ih hm'
      exact ⟨m', List.mem_cons_of_mem _ hm'', hcore⟩

/-- `scheduleRefreshForTab` only rewrites `nextRefreshTime`s. -/
theorem schedule_coreEq (s : BgState) (tabId now : Nat) :
    List.Forall₂ coreEq s.monitors
      (scheduleRefreshForTab s tabId now).monitors := by
  simp only [scheduleRefreshForTab]
  cases hsi : shortestInterval? (activeMonitorsForTab s.monitors tabId) with
  | none => exact forall₂_coreEq_refl s.monitors
  | some I =>
    apply forall₂_coreEq_map
    intro m
    by_cases hc : m.tabId = tabId ∧ m.found = false
    · rw [if_pos hc]
      exact ⟨rfl, rfl, rfl, rfl, rfl, rfl, rfl, rfl, rfl, rfl⟩
    · rw [if_neg hc]
      exact coreEq_refl m

/-- `reopenGroup` only rewrites `tabId` and `nextRefreshTime`. -/
theorem reopenGroup_coreEq (s : BgState) (groupIds : List String)
    (newTab? : Option Nat) (now : Nat) :
    List.Forall₂ coreEq s.monitors
      (reopenGroup s groupIds newTab? now).monitors := by
  unfold reopenGroup
  cases newTab? with
  | none => exact forall₂_coreEq_refl s.monitors
  | some newTabId =>
    refine forall₂_coreEq_trans _ _ _ ?_ (schedule_coreEq _ newTabId now)
    apply forall₂_coreEq_map
    intro m
    by_cases hc : m.id ∈ groupIds
    · rw [if_pos hc]
      exact ⟨rfl, rfl, rfl, rfl, rfl, rfl, rfl, rfl, rfl, rfl⟩
    · rw [if_neg hc]
      exact coreEq_refl m

theorem fold_reopen_coreEq (l : List Nat) (affected : List Monitor)
    (reopenTab : Nat → Option Nat) (now : Nat) :
    ∀ s : BgState, List.Forall₂ coreEq s.monitors
      (l.foldl (fun st origTab =>
        reopenGroup st
          ((affected.filter (fun m => m.tabId = origTab)).map (·.id))
          (reopenTab origTab) now) s).monitors := by
  induction l with
  | nil => intro s; exact forall₂_coreEq_refl s.monitors
  | cons a l ih =>
    intro s
    simp only [List.foldl_cons]
    exact forall₂_coreEq_trans _ _ _ (reopenGroup_coreEq s _ _ now) (ih _)

/-- C9: during an InPrivate session reset, every affected active ephemeral
watch survives.  Its tab is flagged in `tabsBeingReset` before any window is
closed; the `tabs.onRemoved` cleanup on a flagged tab deletes nothing;
and after the whole reset run — whatever the window-creation oracle does,
including failing — the store still relates entry-by-entry to the original
one with every field except `tabId` and `nextRefreshTime` unchanged, so the
affected watch still exists with its core fields intact. -/
theorem inprivate_reset_preserves_watches (s : BgState)
    (windowOf reopenTab : Nat → Option Nat) (now : Nat) (m : Monitor)
    (hm : m ∈ s.monitors) (hinc : m.isIncognito = true)
    (hnf : m.found = false) (hwin : (windowOf m.tabId).isSome = true) :
    m.tabId ∈ (markTabsBeingReset s windowOf).tabsBeingReset ∧
    (∀ s' : BgState, m.tabId ∈ s'.tabsBeingReset →
      (onTabRemoved s' m.tabId).monitors = s'.monitors) ∧
    List.Forall₂ coreEq s.monitors
      (resetRun s windowOf reopenTab now).monitors ∧
    ∃ m' ∈ (resetRun s windowOf reopenTab now).monitors, coreEq m m' := by
  have haff : m ∈ affectedForReset s.monitors windowOf := by
    simp [affectedForReset, List.mem_filter, hm, hinc, hnf, hwin]
  have h1 : m.tabId ∈ (markTabsBeingReset s windowOf).tabsBeingReset :=
    mark_fold_mem _ s m haff
  have h2 : ∀ s' : BgState, m.tabId ∈ s'.tabsBeingReset →
      (onTabRemoved s' m.tabId).monitors = s'.monitors :=
    fun s' h => (onTabRemoved_flagged s' m.tabId h).1
  have hnodup : (((affectedForReset s.monitors windowOf).map
      (·.tabId)).foldl insertUniqueRight []).Nodup :=
    foldl_insertUniqueRight_nodup _ [] List.nodup_nil
  have hsub : ∀ t ∈ ((affectedForReset s.monitors windowOf).map
      (·.tabId)).foldl insertUniqueRight [],
      t ∈ (markTabsBeingReset s windowOf).tabsBeingReset := by
    intro t htmem
    rcases (foldl_insertUniqueRight_mem _ [] t).mp htmem with h | h
    · exact absurd h (List.not_mem_nil t)
    · obtain ⟨m', hm', hmt⟩ := List.mem_map.mp h
      exact hmt ▸ mark_fold_mem _ s m' hm'
  have hs2mon : ((((affectedForReset s.monitors windowOf).map
      (·.tabId)).foldl insertUniqueRight []).foldl onTabRemoved
      (markTabsBeingReset s windowOf)).monitors = s.monitors := by
    rw [fold_onTabRemoved_no_delete _ _ hnodup hsub]
    exact mark_fold_monitors _ s
  have hfa : List.Forall₂ coreEq s.monitors
      (resetRun s windowOf reopenTab now).monitors := by
    have h := fold_reopen_coreEq
      (((affectedForReset s.monitors windowOf).map
        (·.tabId)).foldl insertUniqueRight [])
      (affectedForReset s.monitors windowOf) reopenTab now
      ((((affectedForReset s.monitors windowOf).map
        (·.tabId)).foldl insertUniqueRight []).foldl onTabRemoved
        (markTabsBeingReset s windowOf))
    rw [hs2mon] at h
    exact h
  exact ⟨h1, h2, hfa, forall₂_coreEq_mem_left _ _ hfa m hm⟩

/-- A concrete affected InPrivate watch. -/
def inMonitor : Monitor :=
  { sampleMonitor with
    id := "mi"
    isIncognito := true
    incognitoCycleCount := 1 }

/-- Witness for C9 at a concrete input, with a failing reopen oracle: the
watch's tab is flagged, the flagged-tab cleanup deletes nothing, and even
though reopening fails the watch survives with its core fields intact. -/
theorem inprivate_reset_preserves_watches_witness :
    (inMonitor.tabId ∈
      (markTabsBeingReset ⟨[inMonitor], [1], []⟩
        (fun _ => some 10)).tabsBeingReset) ∧
    (∀ s' : BgState, inMonitor.tabId ∈ s'.tabsBeingReset →
      (onTabRemoved s' inMonitor.tabId).monitors = s'.monitors) ∧
    List.Forall₂ coreEq [inMonitor]
      (resetRun ⟨[inMonitor], [1], []⟩ (fun _ => some 10) (fun _ => none)
        5000).monitors ∧
    ∃ m' ∈ (resetRun ⟨[inMonitor], [1], []⟩ (fun _ => some 10)
        (fun _ => none) 5000).monitors, coreEq inMonitor m' :=
  inprivate_reset_preserves_watches ⟨[inMonitor], [1], []⟩
    (fun _ => some 10) (fun _ => none) 5000 inMonitor
    (List.mem_cons_self inMonitor []) rfl rfl rfl

end Watchdog
